import Mathlib

/-!
Verification of the Maker fee-collection engine of `astroport-core`.

The repository source under verification is `packages/astroport/src/maker.rs`,
which declares the message schema (`InstantiateMsg`, `ExecuteMsg`, `QueryMsg`,
`ConfigResponse`, `BalancesResponse`, `AssetWithLimit`).  The handlers that
execute those messages (collector, router, distributor, ownership/admin flow)
are not part of the source tree, so they are modelled from the specification,
each such definition marked `Modelled from the spec:`.  Addresses are strings,
`Uint128`/`Uint64` amounts are natural numbers (CosmWasm integer arithmetic on
these types is checked, i.e. never wraps), block heights are naturals.
-/

namespace Maker

/-- Modelled from the spec: `AssetInfo` (declared in `crate::asset`, not in the
source tree): tagged union of a native token (by denom) and a contract token
(by contract address). -/
inductive AssetInfo where
  | nativeToken (denom : String)
  | token (contractAddr : String)
deriving DecidableEq, Repr

/-- Modelled from the spec: `Asset` (declared in `crate::asset`, not in the
source tree): an `AssetInfo` together with an unsigned 128-bit amount. -/
structure Asset where
  info : AssetInfo
  amount : Nat
deriving DecidableEq, Repr

/-- Structure `AssetWithLimit` from `src/packages/astroport/src/maker.rs`: an asset to
collect, with an optional cap on the collected amount. -/
structure AssetWithLimit where
  info : AssetInfo
  limit : Option Nat
deriving DecidableEq, Repr

/-- Type `UpdateAddr` from `crate::factory` (not in the source tree), modelled from
the spec: the tri-state governance-address update is `Option UpdateAddr`, where
`none` keeps the current value, `some (set a)` sets it and `some remove`
clears it. -/
inductive UpdateAddr where
  | set (addr : String)
  | remove
deriving DecidableEq, Repr

/-- Structure `InstantiateMsg` from `src/packages/astroport/src/maker.rs`. -/
structure InstantiateMsg where
  owner : String
  astroTokenContract : String
  factoryContract : String
  stakingContract : String
  governanceContract : Option String
  governancePercent : Option Nat
  maxSpread : Option Nat
deriving DecidableEq, Repr

/-- Type `ExecuteMsg` from `src/packages/astroport/src/maker.rs`. -/
inductive ExecuteMsg where
  | collect (assets : List AssetWithLimit)
  | updateConfig (factoryContract : Option String) (stakingContract : Option String)
      (governanceContract : Option UpdateAddr) (governancePercent : Option Nat)
      (maxSpread : Option Nat)
  | updateBridges (add : Option (List (AssetInfo × AssetInfo)))
      (remove : Option (List AssetInfo))
  | swapBridgeAssets (assets : List AssetInfo) (depth : Nat)
  | distributeAstro
  | proposeNewOwner (owner : String) (expiresIn : Nat)
  | dropOwnershipProposal
  | claimOwnership
  | enableRewards (blocks : Nat)
deriving DecidableEq, Repr

/-- Modelled from the spec: the error taxonomy of §7 (the error enum is not in
the source tree).  `invalidConfig` also covers the rejection of a malformed
`UpdateBridges` entry (a self-mapping), which §4.4 requires to be rejected but
for which §7 names no dedicated variant. -/
inductive MakerError where
  | unauthorized
  | invalidConfig
  | noBridgeAsset
  | noPoolFound
  | maxBridgeDepthReached
  | proposalExpired
  | noProposal
  | insufficientBalance
deriving DecidableEq, Repr

/-- Modelled from the spec: the stored `Config` (§3).  `governancePercent` is
stored as an optional value; the `Config` query answers with `0` when it is
absent. -/
structure Config where
  owner : String
  astroTokenContract : String
  factoryContract : String
  stakingContract : String
  governanceContract : Option String
  governancePercent : Option Nat
  maxSpread : Nat
  remainderReward : Nat
  preUpgradeAstroAmount : Nat
  rewardsEnabled : Bool
  enableBlock : Option Nat
deriving DecidableEq, Repr

/-- Modelled from the spec: the ownership proposal record (§3): proposed owner
and expiry block height. -/
structure OwnershipProposal where
  owner : String
  expiresAt : Nat
deriving DecidableEq, Repr

/-- Modelled from the spec: the contract's persistent store — config, bridge
table (an association list keyed by source asset) and the optional ownership
proposal. -/
structure State where
  config : Config
  bridges : List (AssetInfo × AssetInfo)
  proposal : Option OwnershipProposal
deriving DecidableEq, Repr

/-- Modelled from the spec: the invocation environment — caller address,
current block height, the contract's on-hand balances (the snapshot taken at
invocation start), and the Factory's pool-existence oracle. -/
structure Env where
  caller : String
  blockHeight : Nat
  balances : AssetInfo → Nat
  poolExists : AssetInfo → AssetInfo → Bool

/-- Modelled from the spec: the outward instructions an invocation issues —
token transfers, handing an asset to the router, and a single swap hop. -/
inductive Action where
  | transfer (recipient : String) (asset : AssetInfo) (amount : Nat)
  | route (asset : AssetInfo) (amount : Nat) (depth : Nat)
  | swap (offer : AssetInfo) (ask : AssetInfo)
deriving DecidableEq, Repr

/-- The reward token of a configuration: the ASTRO token contract. -/
def rewardAsset (c : Config) : AssetInfo := AssetInfo.token c.astroTokenContract

/-- Lookup in the bridge table. -/
def bridgeLookup (bridges : List (AssetInfo × AssetInfo)) (a : AssetInfo) :
    Option AssetInfo :=
  (bridges.find? (fun p => p.1 = a)).map Prod.snd

/-- Modelled from the spec: the configured hop bound `MAX_BRIDGE_DEPTH`
(§4.2, "constant, e.g. 2"). -/
def MAX_BRIDGE_DEPTH : Nat := 2

/-- Modelled from the spec: `RouteToReward` (§4.2).  Returns the swap path
(offer, ask pairs) the asset takes to the reward token.  A hop counter above
`MAX_BRIDGE_DEPTH` fails with `maxBridgeDepthReached`; a reward-token asset is
terminal with no swap; a direct pool gives a one-swap terminal path; otherwise
the bridge table supplies the next hop (missing entry: `noBridgeAsset`;
missing pool to the bridge: `noPoolFound`) and routing recurses with
`depth + 1`. -/
def routeToReward (rewardToken : AssetInfo) (poolExists : AssetInfo → AssetInfo → Bool)
    (bridges : List (AssetInfo × AssetInfo)) (asset : AssetInfo) (depth : Nat) :
    Except MakerError (List (AssetInfo × AssetInfo)) :=
  if _h : MAX_BRIDGE_DEPTH < depth then
    .error .maxBridgeDepthReached
  else if asset = rewardToken then
    .ok []
  else if poolExists asset rewardToken then
    .ok [(asset, rewardToken)]
  else
    match bridgeLookup bridges asset with
    | none => .error .noBridgeAsset
    | some bridge =>
      if poolExists asset bridge then
        match routeToReward rewardToken poolExists bridges bridge (depth + 1) with
        | .ok rest => .ok ((asset, bridge) :: rest)
        | .error e => .error e
      else .error .noPoolFound
termination_by MAX_BRIDGE_DEPTH + 1 - depth
decreasing_by omega

/-- Modelled from the spec: the collector's per-entry amount (§4.1):
`min(balance, limit.unwrap_or(balance))`. -/
def collectAmount (balance : Nat) (limit : Option Nat) : Nat :=
  min balance (limit.getD balance)

/-- Modelled from the spec: the collector's amount resolution (§4.1): each
entry is resolved against the balance snapshot taken at invocation start;
entries whose computed amount is `0` are skipped as no-ops. -/
def collectAmounts (balances : AssetInfo → Nat) (assets : List AssetWithLimit) :
    List (AssetInfo × Nat) :=
  assets.filterMap (fun a =>
    let amt := collectAmount (balances a.info) a.limit
    if amt = 0 then none else some (a.info, amt))

/-- Modelled from the spec: the distributor's arithmetic (§4.3).  From the
reward-token balance `B`, first `min(B, remainder_reward)` drains to staking;
of the remaining `B'`, if a governance address and a governance percent are
set, `floor(B' * percent / 100)` goes to governance and the rest to staking.
Returns `(stakingAmount, govAmount)`. -/
def distributeAmounts (c : Config) (B : Nat) : Nat × Nat :=
  let drain := min B c.remainderReward
  let rest := B - drain
  let govAmount :=
    match c.governanceContract, c.governancePercent with
    | some _, some p => rest * p / 100
    | _, _ => 0
  (drain + (rest - govAmount), govAmount)

/-- Modelled from the spec: `DistributeAstro` (§4.3).  Decrements
`remainder_reward` by the drained amount and issues the two transfers,
omitting zero amounts (no empty transfers). -/
def distributeAstro (c : Config) (B : Nat) : Config × List Action :=
  let amounts := distributeAmounts c B
  let drain := min B c.remainderReward
  let c' := { c with remainderReward := c.remainderReward - drain }
  let govActs :=
    match c.governanceContract with
    | some g => if amounts.2 = 0 then [] else [Action.transfer g (rewardAsset c) amounts.2]
    | none => []
  let stakingActs :=
    if amounts.1 = 0 then [] else [Action.transfer c.stakingContract (rewardAsset c) amounts.1]
  (c', govActs ++ stakingActs)

/-- Total amount moved by the transfer actions of a list. -/
def sumTransfers (l : List Action) : Nat :=
  l.foldr (fun a acc => match a with | .transfer _ _ n => n + acc | _ => acc) 0

/-- Modelled from the spec: `ProposeNewOwner` (§4.4): owner-only; overwrites
any existing proposal; `expires_at = current_block + expires_in`. -/
def proposeNewOwner (s : State) (caller newOwner : String) (expiresIn blockHeight : Nat) :
    Except MakerError State :=
  if caller ≠ s.config.owner then .error .unauthorized
  else .ok { s with proposal := some ⟨newOwner, blockHeight + expiresIn⟩ }

/-- Modelled from the spec: `DropOwnershipProposal` (§4.4): owner-only; clears
the proposal unconditionally (no-op when none exists). -/
def dropOwnershipProposal (s : State) (caller : String) : Except MakerError State :=
  if caller ≠ s.config.owner then .error .unauthorized
  else .ok { s with proposal := none }

/-- Modelled from the spec: `ClaimOwnership` (§4.4): the caller must equal the
proposed owner (else `unauthorized`) and the current block must be strictly
below `expires_at` (else `proposalExpired`); on success `Config.owner` becomes
the proposed owner and the proposal is cleared.  With no active proposal the
call fails with `noProposal`. -/
def claimOwnership (s : State) (caller : String) (blockHeight : Nat) :
    Except MakerError State :=
  match s.proposal with
  | none => .error .noProposal
  | some p =>
    if caller ≠ p.owner then .error .unauthorized
    else if p.expiresAt ≤ blockHeight then .error .proposalExpired
    else .ok { s with config := { s.config with owner := p.owner }, proposal := none }

/-- Remove a set of keys from the bridge table. -/
def bridgeRemove (bridges : List (AssetInfo × AssetInfo)) (keys : List AssetInfo) :
    List (AssetInfo × AssetInfo) :=
  bridges.filter (fun p => ¬ p.1 ∈ keys)

/-- Upsert one (source → bridge) pair into the bridge table. -/
def bridgeUpsert (bridges : List (AssetInfo × AssetInfo)) (entry : AssetInfo × AssetInfo) :
    List (AssetInfo × AssetInfo) :=
  entry :: bridges.filter (fun p => p.1 ≠ entry.1)

/-- Modelled from the spec: `UpdateBridges` (§4.4): owner-only; removals are
applied first, then additions upsert (source → bridge) pairs; an addition
mapping an asset to itself is rejected. -/
def updateBridges (s : State) (caller : String)
    (add : Option (List (AssetInfo × AssetInfo))) (remove : Option (List AssetInfo)) :
    Except MakerError State :=
  if caller ≠ s.config.owner then .error .unauthorized
  else if (add.getD []).any (fun p => p.1 = p.2) then .error .invalidConfig
  else
    .ok { s with bridges :=
      (add.getD []).foldl bridgeUpsert (bridgeRemove s.bridges (remove.getD [])) }

/-- Apply the tri-state governance-address update. -/
def applyUpdateAddr (cur : Option String) (u : Option UpdateAddr) : Option String :=
  match u with
  | none => cur
  | some (.set a) => some a
  | some .remove => none

/-- Apply the optional percent update: an absent field keeps the current
value. -/
def updatedPercent (cur : Option Nat) (u : Option Nat) : Option Nat :=
  match u with
  | some p => some p
  | none => cur

/-- Modelled from the spec: `UpdateConfig` (§4.4): owner-only; absent fields
are unchanged; the governance address takes a tri-state update; a resulting
configuration carrying a governance percent without a governance address is
rejected with `invalidConfig` (§7). -/
def updateConfig (s : State) (caller : String) (factoryContract : Option String)
    (stakingContract : Option String) (governanceContract : Option UpdateAddr)
    (governancePercent : Option Nat) (maxSpread : Option Nat) :
    Except MakerError State :=
  if caller ≠ s.config.owner then .error .unauthorized
  else if (updatedPercent s.config.governancePercent governancePercent).isSome ∧
      applyUpdateAddr s.config.governanceContract governanceContract = none then
    .error .invalidConfig
  else
    .ok { s with config :=
      { s.config with
        factoryContract := factoryContract.getD s.config.factoryContract
        stakingContract := stakingContract.getD s.config.stakingContract
        governanceContract := applyUpdateAddr s.config.governanceContract governanceContract
        governancePercent := updatedPercent s.config.governancePercent governancePercent
        maxSpread := maxSpread.getD s.config.maxSpread } }

/-- Modelled from the spec: `EnableRewards` (§4.4): owner-only; schedules the
rewards gate to open at `current_block + blocks`, or immediately when
`blocks = 0`. -/
def enableRewards (s : State) (caller : String) (blocks blockHeight : Nat) :
    Except MakerError State :=
  if caller ≠ s.config.owner then .error .unauthorized
  else if blocks = 0 then
    .ok { s with config := { s.config with rewardsEnabled := true, enableBlock := none } }
  else
    .ok { s with config := { s.config with enableBlock := some (blockHeight + blocks) } }

/-- Modelled from the spec: instantiation (§3, §7): a message carrying a
governance percent without a governance address is rejected with
`invalidConfig`; otherwise the initial configuration is stored with zero
remainder and the rewards gate closed. -/
def instantiate (msg : InstantiateMsg) : Except MakerError Config :=
  if msg.governancePercent.isSome ∧ msg.governanceContract = none then
    .error .invalidConfig
  else
    .ok
      { owner := msg.owner
        astroTokenContract := msg.astroTokenContract
        factoryContract := msg.factoryContract
        stakingContract := msg.stakingContract
        governanceContract := msg.governanceContract
        governancePercent := msg.governancePercent
        maxSpread := msg.maxSpread.getD 0
        remainderReward := 0
        preUpgradeAstroAmount := 0
        rewardsEnabled := false
        enableBlock := none }

/-- Modelled from the spec: `Collect` (§4.1): permissionless once rewards are
enabled, owner-only before; resolves each entry's amount against the balance
snapshot; reward-token entries accumulate directly, every other collected
asset is handed to the router with depth 0. -/
def executeCollect (s : State) (env : Env) (assets : List AssetWithLimit) :
    Except MakerError (State × List Action) :=
  if ¬ s.config.rewardsEnabled ∧ env.caller ≠ s.config.owner then .error .unauthorized
  else
    .ok (s, (collectAmounts env.balances assets).filterMap (fun p =>
      if p.1 = rewardAsset s.config then none else some (.route p.1 p.2 0)))

/-- Modelled from the spec: `SwapBridgeAssets` (§4.2): the externally
invokable re-entry point; routes each listed asset with the same depth bound
and resolution order, aborting on the first failing asset. -/
def executeSwapBridgeAssets (s : State) (env : Env) (assets : List AssetInfo)
    (depth : Nat) : Except MakerError (State × List Action) :=
  match assets.mapM
      (fun a => routeToReward (rewardAsset s.config) env.poolExists s.bridges a depth) with
  | .error e => .error e
  | .ok paths => .ok (s, paths.flatten.map (fun p => Action.swap p.1 p.2))

/-- Modelled from the spec: message dispatch over `ExecuteMsg`. -/
def execute (s : State) (env : Env) (msg : ExecuteMsg) :
    Except MakerError (State × List Action) :=
  match msg with
  | .collect assets => executeCollect s env assets
  | .updateConfig f st g gp ms =>
      (updateConfig s env.caller f st g gp ms).map (fun s' => (s', []))
  | .updateBridges add remove =>
      (updateBridges s env.caller add remove).map (fun s' => (s', []))
  | .swapBridgeAssets assets depth => executeSwapBridgeAssets s env assets depth
  | .distributeAstro =>
      let r := distributeAstro s.config (env.balances (rewardAsset s.config))
      .ok ({ s with config := r.1 }, r.2)
  | .proposeNewOwner o e =>
      (proposeNewOwner s env.caller o e env.blockHeight).map (fun s' => (s', []))
  | .dropOwnershipProposal => (dropOwnershipProposal s env.caller).map (fun s' => (s', []))
  | .claimOwnership => (claimOwnership s env.caller env.blockHeight).map (fun s' => (s', []))
  | .enableRewards blocks =>
      (enableRewards s env.caller blocks env.blockHeight).map (fun s' => (s', []))

/-- Modelled from the spec: the hosting environment's transactional semantics
(§5): an invocation either fully commits its new state and actions, or — on
any error — reverts to the pre-invocation state with no actions issued. -/
def runInvocation (s : State) (env : Env) (msg : ExecuteMsg) : State × List Action :=
  match execute s env msg with
  | .ok r => r
  | .error _ => (s, [])

/-- Structure `ConfigResponse` from `src/packages/astroport/src/maker.rs`. -/
structure ConfigResponse where
  owner : String
  astroTokenContract : String
  factoryContract : String
  stakingContract : String
  governanceContract : Option String
  governancePercent : Nat
  maxSpread : Nat
  remainderReward : Nat
  preUpgradeAstroAmount : Nat
deriving DecidableEq, Repr

/-- Modelled from the spec: the `Config` query exposes the stored
configuration; the optional stored percent is reported as `0` when absent. -/
def queryConfig (s : State) : ConfigResponse :=
  { owner := s.config.owner
    astroTokenContract := s.config.astroTokenContract
    factoryContract := s.config.factoryContract
    stakingContract := s.config.stakingContract
    governanceContract := s.config.governanceContract
    governancePercent := s.config.governancePercent.getD 0
    maxSpread := s.config.maxSpread
    remainderReward := s.config.remainderReward
    preUpgradeAstroAmount := s.config.preUpgradeAstroAmount }

/-- The configuration invariant of §3: a governance percent is present only
if a governance address is present. -/
def configInvariant (c : Config) : Prop :=
  c.governancePercent.isSome → c.governanceContract.isSome

instance (c : Config) : Decidable (configInvariant c) := by
  unfold configInvariant; infer_instance

/-! Concrete fixtures used in the scenario theorems and witnesses. -/

/-- A concrete asset used in scenarios. -/
def usdt : AssetInfo := .token "usdt"

/-- A concrete asset used in scenarios. -/
def usdc : AssetInfo := .token "usdc"

/-- The reward token of the concrete scenarios. -/
def astro : AssetInfo := .token "astro"

/-- A pool oracle with pools only between USDT and USDC (no pool reaches the
reward token), realizing the 2-cycle scenario. -/
def cyclePools : AssetInfo → AssetInfo → Bool :=
  fun a b => (a = usdt && b = usdc) || (a = usdc && b = usdt)

/-- A baseline configuration without governance. -/
def cfgBase : Config :=
  { owner := "alice"
    astroTokenContract := "astro"
    factoryContract := "factory"
    stakingContract := "staking"
    governanceContract := none
    governancePercent := none
    maxSpread := 0
    remainderReward := 0
    preUpgradeAstroAmount := 0
    rewardsEnabled := true
    enableBlock := none }

/-- The distribution scenario configuration: pre-upgrade remainder 100 and a
20 percent governance cut. -/
def cfgGov : Config :=
  { cfgBase with
    governanceContract := some "gov"
    governancePercent := some 20
    remainderReward := 100 }

/-- A baseline store. -/
def stBase : State := { config := cfgBase, bridges := [], proposal := none }

/-- An environment whose caller is the baseline owner. -/
def envOwner : Env :=
  { caller := "alice", blockHeight := 0, balances := fun _ => 0,
    poolExists := fun _ _ => false }

/-- An environment whose caller is a stranger. -/
def envMallory : Env :=
  { caller := "mallory", blockHeight := 0, balances := fun _ => 0,
    poolExists := fun _ _ => false }

/-! Theorems -/

/-- C1: every amount the collector resolves for an entry is positive, comes
from an entry of the input list, equals `min(balance, limit.unwrap_or(balance))`
for that entry's snapshot balance, hence is at most the on-hand balance at
invocation start and at most the limit when one is given; and an entry whose
computed amount is `0` is skipped as a no-op (dropped from the resolution)
rather than an error. -/
theorem collect_respects_limits :
    (∀ (balances : AssetInfo → Nat) (assets : List AssetWithLimit) (p : AssetInfo × Nat),
      p ∈ collectAmounts balances assets →
      0 < p.2 ∧ ∃ a ∈ assets, p.1 = a.info ∧
        p.2 = collectAmount (balances a.info) a.limit ∧
        p.2 ≤ balances a.info ∧ ∀ l, a.limit = some l → p.2 ≤ l) ∧
    (∀ (balances : AssetInfo → Nat) (a : AssetWithLimit) (rest : List AssetWithLimit),
      collectAmount (balances a.info) a.limit = 0 →
      collectAmounts balances (a :: rest) = collectAmounts balances rest) := by
  constructor
  · intro balances assets p hp
    simp only [collectAmounts, List.mem_filterMap] at hp
    obtain ⟨a, ha, hfa⟩ := hp
    by_cases h0 : collectAmount (balances a.info) a.limit = 0
    · simp [h0] at hfa
    · rw [if_neg h0] at hfa
      injection hfa with hfa
      subst hfa
      refine ⟨Nat.pos_of_ne_zero h0, a, ha, rfl, rfl, Nat.min_le_left _ _, ?_⟩
      intro l hl
      simp only [collectAmount, hl, Option.getD_some]
      exact Nat.min_le_right _ _
  · intro balances a rest h0
    simp [collectAmounts, h0]

/-- C1 witness: a concrete instantiation of the first part of
`collect_respects_limits`. -/
theorem collect_respects_limits_witness :
    (usdt, 5) ∈ collectAmounts (fun _ => 7) [⟨usdt, some 5⟩] ∧
    (0 < (usdt, 5).2 ∧ ∃ a ∈ [(⟨usdt, some 5⟩ : AssetWithLimit)], (usdt, 5).1 = a.info ∧
      (usdt, 5).2 = collectAmount ((fun (_ : AssetInfo) => 7) a.info) a.limit ∧
      (usdt, 5).2 ≤ (fun (_ : AssetInfo) => 7) a.info ∧
      ∀ l, a.limit = some l → (usdt, 5).2 ≤ l) :=
  ⟨by simp [collectAmounts, collectAmount],
   collect_respects_limits.1 (fun _ => 7) [⟨usdt, some 5⟩] (usdt, 5)
     (by simp [collectAmounts, collectAmount])⟩

/-- Transfer totals add over list append. -/
lemma sumTransfers_append (l1 l2 : List Action) :
    sumTransfers (l1 ++ l2) = sumTransfers l1 + sumTransfers l2 := by
  induction l1 with
  | nil => simp [sumTransfers]
  | cons a l ih =>
    cases a <;> simp only [sumTransfers, List.foldr_cons, List.cons_append] at * <;> omega

/-- The transfers issued by the distributor move exactly the staking and
governance amounts (omitting zero transfers loses nothing). -/
lemma sumTransfers_distributeAstro (c : Config) (B : Nat) :
    sumTransfers (distributeAstro c B).2
      = (distributeAmounts c B).1 + (distributeAmounts c B).2 := by
  unfold distributeAstro
  cases hg : c.governanceContract with
  | none =>
    have h2 : (distributeAmounts c B).2 = 0 := by simp [distributeAmounts, hg]
    by_cases h1 : (distributeAmounts c B).1 = 0 <;>
      (simp [sumTransfers, sumTransfers_append, h1, h2]; try omega)
  | some g =>
    by_cases h2 : (distributeAmounts c B).2 = 0 <;>
      by_cases h1 : (distributeAmounts c B).1 = 0 <;>
        (simp [sumTransfers, sumTransfers_append, h1, h2]; try omega)

/-- The distributor's two amounts always add up to the full balance
(assuming the configured percent is at most 100). -/
lemma distributeAmounts_total (c : Config) (B : Nat)
    (hp : ∀ p, c.governancePercent = some p → p ≤ 100) :
    (distributeAmounts c B).1 + (distributeAmounts c B).2 = B := by
  have hmin : min B c.remainderReward ≤ B := Nat.min_le_left _ _
  unfold distributeAmounts
  cases hg : c.governanceContract with
  | none => simp; try omega
  | some g =>
    cases hq : c.governancePercent with
    | none => simp; try omega
    | some p =>
      have h1 : (B - min B c.remainderReward) * p / 100 ≤ B - min B c.remainderReward := by
        calc (B - min B c.remainderReward) * p / 100
            ≤ (B - min B c.remainderReward) * 100 / 100 :=
              Nat.div_le_div_right (Nat.mul_le_mul_left _ (hp p hq))
          _ = B - min B c.remainderReward := Nat.mul_div_cancel _ (by norm_num)
      simp
      omega

/-- Distribution of a zero balance changes nothing and issues no transfers. -/
lemma distributeAstro_zero (c : Config) : distributeAstro c 0 = (c, []) := by
  obtain ⟨o, a, f, st, gc, gp, ms, rr, pre, re, eb⟩ := c
  cases gc <;> cases gp <;> simp [distributeAstro, distributeAmounts]

/-- C3: the distributor first drains the pre-upgrade remainder to staking,
then splits the rest with floor division: concretely, with remainder 100,
balance 130 and a 20 percent governance cut, staking receives 124, governance
receives 6 and the stored remainder becomes 0; in general, with governance
configured, the governance amount is `floor(rest * percent / 100)` of the
post-drain rest and staking gets the drain plus everything else. -/
theorem distribute_astro_split :
    (distributeAmounts cfgGov 130 = (124, 6) ∧
     (distributeAstro cfgGov 130).1.remainderReward = 0 ∧
     (distributeAstro cfgGov 130).2 =
       [.transfer "gov" astro 6, .transfer "staking" astro 124]) ∧
    (∀ (c : Config) (B : Nat) (g : String) (p : Nat),
      c.governanceContract = some g → c.governancePercent = some p →
      (distributeAmounts c B).2 = (B - min B c.remainderReward) * p / 100 ∧
      (distributeAmounts c B).1 =
        min B c.remainderReward +
          ((B - min B c.remainderReward) - (B - min B c.remainderReward) * p / 100)) := by
  constructor
  · exact ⟨by decide, by decide, by decide⟩
  · intro c B g p hg hq
    unfold distributeAmounts
    rw [hg, hq]
    simp

/-- C3 witness: the general split formula applied to the concrete scenario
configuration. -/
theorem distribute_astro_split_witness :
    cfgGov.governanceContract = some "gov" ∧ cfgGov.governancePercent = some 20 ∧
    ((distributeAmounts cfgGov 130).2 = (130 - min 130 cfgGov.remainderReward) * 20 / 100 ∧
     (distributeAmounts cfgGov 130).1 =
       min 130 cfgGov.remainderReward +
         ((130 - min 130 cfgGov.remainderReward) -
           (130 - min 130 cfgGov.remainderReward) * 20 / 100)) :=
  ⟨rfl, rfl, distribute_astro_split.2 cfgGov 130 "gov" 20 rfl rfl⟩

/-- C4: distributing a zero reward balance succeeds as a no-op — the
configuration is unchanged and no transfer is issued — and consequently a
second `DistributeAstro` with no intervening deposit (the first call sends
the whole balance away, leaving zero on hand) is a no-op. -/
theorem distribute_astro_zero_idempotent :
    (∀ c : Config, distributeAstro c 0 = (c, [])) ∧
    (∀ (c : Config) (B : Nat), (∀ p, c.governancePercent = some p → p ≤ 100) →
      sumTransfers (distributeAstro c B).2 = B ∧
      distributeAstro (distributeAstro c B).1 (B - sumTransfers (distributeAstro c B).2)
        = ((distributeAstro c B).1, [])) := by
  refine ⟨distributeAstro_zero, ?_⟩
  intro c B hp
  have hsum : sumTransfers (distributeAstro c B).2 = B := by
    rw [sumTransfers_distributeAstro, distributeAmounts_total c B hp]
  refine ⟨hsum, ?_⟩
  rw [hsum, Nat.sub_self]
  exact distributeAstro_zero _

/-- C4 witness: the idempotence part applied to the concrete scenario. -/
theorem distribute_astro_zero_idempotent_witness :
    sumTransfers (distributeAstro cfgGov 130).2 = 130 ∧
    distributeAstro (distributeAstro cfgGov 130).1
        (130 - sumTransfers (distributeAstro cfgGov 130).2)
      = ((distributeAstro cfgGov 130).1, []) :=
  distribute_astro_zero_idempotent.2 cfgGov 130
    (by intro p h; simp [cfgGov, cfgBase] at h; omega)

/-- Any successful route fits in the hop budget: starting at `depth`, the
path has at most `MAX_BRIDGE_DEPTH + 1 - depth` swaps. -/
lemma routeToReward_length_le (rewardToken : AssetInfo)
    (poolExists : AssetInfo → AssetInfo → Bool) (bridges : List (AssetInfo × AssetInfo))
    (asset : AssetInfo) (depth : Nat) :
    ∀ path, routeToReward rewardToken poolExists bridges asset depth = .ok path →
      depth + path.length ≤ MAX_BRIDGE_DEPTH + 1 := by
  induction asset, depth using routeToReward.induct rewardToken poolExists bridges with
  | case1 asset depth h =>
    intro path hp
    rw [routeToReward] at hp
    simp [h] at hp
  | case2 depth h =>
    intro path hp
    rw [routeToReward] at hp
    simp [h] at hp
    subst hp
    simp
    omega
  | case3 asset depth h h2 h3 =>
    intro path hp
    rw [routeToReward] at hp
    simp [h, h2, h3] at hp
    subst hp
    simp
    omega
  | case4 asset depth h h2 h3 hb =>
    intro path hp
    rw [routeToReward] at hp
    simp [h, h2, h3, hb] at hp
  | case5 asset depth h h2 h3 bridge hb hpool rest hrec ih =>
    intro path hp
    rw [routeToReward] at hp
    simp [h, h2, h3, hb, hpool, hrec] at hp
    subst hp
    have hrest := ih rest hrec
    simp
    omega
  | case6 asset depth h h2 h3 bridge hb hpool e hrec ih =>
    intro path hp
    rw [routeToReward] at hp
    simp [h, h2, h3, hb, hpool, hrec] at hp
  | case7 asset depth h h2 h3 bridge hb hpool =>
    intro path hp
    rw [routeToReward] at hp
    simp [h, h2, h3, hb, hpool] at hp

/-- C2: routing is bounded — every successful route issued from hop counter
`depth` performs at most `MAX_BRIDGE_DEPTH + 1 - depth` further swaps (so a
route started at depth 0 can never exceed the configured bound), and on the
concrete bridge table containing the USDT→USDC→USDT 2-cycle (with pools
existing only inside the cycle) routing terminates with
`maxBridgeDepthReached` instead of looping. -/
theorem routing_bounded_or_max_depth :
    (∀ (rewardToken : AssetInfo) (poolExists : AssetInfo → AssetInfo → Bool)
      (bridges : List (AssetInfo × AssetInfo)) (asset : AssetInfo) (depth : Nat)
      (path : List (AssetInfo × AssetInfo)),
      routeToReward rewardToken poolExists bridges asset depth = .ok path →
      depth + path.length ≤ MAX_BRIDGE_DEPTH + 1) ∧
    routeToReward astro cyclePools [(usdt, usdc), (usdc, usdt)] usdt 0
      = .error .maxBridgeDepthReached := by
  refine ⟨fun r pe b a d => routeToReward_length_le r pe b a d, ?_⟩
  simp [routeToReward, cyclePools, bridgeLookup, usdt, usdc, astro, MAX_BRIDGE_DEPTH]

/-- C2 witness: the bound applied to a concrete one-step route. -/
theorem routing_bounded_or_max_depth_witness :
    routeToReward astro cyclePools [] astro 0 = .ok [] ∧
    (0 : Nat) + ([] : List (AssetInfo × AssetInfo)).length ≤ MAX_BRIDGE_DEPTH + 1 :=
  ⟨by rw [routeToReward]; simp [MAX_BRIDGE_DEPTH],
   routing_bounded_or_max_depth.1 astro cyclePools [] astro 0 []
     (by rw [routeToReward]; simp [MAX_BRIDGE_DEPTH])⟩

/-- C5: given an active proposal, `ClaimOwnership` succeeds exactly when the
caller is the proposed owner and the current block is strictly below the
proposal's expiry; on success the stored owner becomes the proposed owner and
the proposal is cleared; a correct caller past expiry gets `proposalExpired`,
a wrong caller gets `unauthorized`; and `ProposeNewOwner` stores
`expires_at = proposal block + expires_in`. -/
theorem claim_ownership_spec :
    (∀ (s : State) (caller : String) (blockHeight : Nat) (p : OwnershipProposal),
      s.proposal = some p →
      ((∃ s', claimOwnership s caller blockHeight = .ok s') ↔
        caller = p.owner ∧ blockHeight < p.expiresAt) ∧
      (∀ s', claimOwnership s caller blockHeight = .ok s' →
        s'.config = { s.config with owner := p.owner } ∧ s'.proposal = none ∧
        s'.bridges = s.bridges) ∧
      (caller ≠ p.owner → claimOwnership s caller blockHeight = .error .unauthorized) ∧
      (caller = p.owner → p.expiresAt ≤ blockHeight →
        claimOwnership s caller blockHeight = .error .proposalExpired)) ∧
    (∀ (s : State) (caller newOwner : String) (expiresIn blockHeight : Nat) (s' : State),
      proposeNewOwner s caller newOwner expiresIn blockHeight = .ok s' →
      s'.proposal = some ⟨newOwner, blockHeight + expiresIn⟩) := by
  constructor
  · intro s caller blockHeight p hp
    refine ⟨⟨?_, ?_⟩, ?_, ?_, ?_⟩
    · rintro ⟨s', hs'⟩
      unfold claimOwnership at hs'
      rw [hp] at hs'
      by_cases hc : caller = p.owner
      · by_cases he : p.expiresAt ≤ blockHeight
        · simp [hc, he] at hs'
        · exact ⟨hc, by omega⟩
      · simp [hc] at hs'
    · rintro ⟨hc, he⟩
      have hne : ¬ p.expiresAt ≤ blockHeight := by omega
      exact ⟨{ s with config := { s.config with owner := p.owner }, proposal := none },
        by simp [claimOwnership, hp, hc, hne]⟩
    · intro s' hs'
      unfold claimOwnership at hs'
      rw [hp] at hs'
      by_cases hc : caller = p.owner
      · by_cases he : p.expiresAt ≤ blockHeight
        · simp [hc, he] at hs'
        · simp [hc, he] at hs'
          subst hs'
          exact ⟨rfl, rfl, rfl⟩
      · simp [hc] at hs'
    · intro hc
      simp [claimOwnership, hp, hc]
    · intro hc he
      simp [claimOwnership, hp, hc, he]
  · intro s caller newOwner expiresIn blockHeight s' hs'
    unfold proposeNewOwner at hs'
    by_cases hc : caller = s.config.owner
    · simp [hc] at hs'
      subst hs'
      rfl
    · simp [hc] at hs'

/-- C5 witness: the spec scenario — a proposal for "xavier" made at block 50
with `expires_in = 10` (so expiry 60): the claim by "xavier" at block 59 can
succeed, and the same call at block 61 fails with `proposalExpired`. -/
theorem claim_ownership_spec_witness :
    ({ stBase with proposal := some ⟨"xavier", 60⟩ } : State).proposal
        = some ⟨"xavier", 60⟩ ∧
    ((∃ s', claimOwnership { stBase with proposal := some ⟨"xavier", 60⟩ } "xavier" 59
        = .ok s') ↔ ("xavier" = "xavier" ∧ 59 < 60)) ∧
    claimOwnership { stBase with proposal := some ⟨"xavier", 60⟩ } "xavier" 61
      = .error .proposalExpired :=
  ⟨rfl,
   (claim_ownership_spec.1 { stBase with proposal := some ⟨"xavier", 60⟩ } "xavier" 59
     ⟨"xavier", 60⟩ rfl).1,
   (claim_ownership_spec.1 { stBase with proposal := some ⟨"xavier", 60⟩ } "xavier" 61
     ⟨"xavier", 60⟩ rfl).2.2.2 rfl (by norm_num)⟩

/-- C6: every administrative operation — `UpdateConfig`, `UpdateBridges`,
`ProposeNewOwner`, `DropOwnershipProposal`, `EnableRewards` — fails with
`unauthorized` for a caller that is not the stored owner, and the invocation
then commits nothing: the store is unchanged and no action is issued. -/
theorem non_owner_admin_unauthorized (s : State) (env : Env)
    (h : env.caller ≠ s.config.owner) :
    (∀ f st g gp ms, execute s env (.updateConfig f st g gp ms) = .error .unauthorized ∧
      runInvocation s env (.updateConfig f st g gp ms) = (s, [])) ∧
    (∀ a r, execute s env (.updateBridges a r) = .error .unauthorized ∧
      runInvocation s env (.updateBridges a r) = (s, [])) ∧
    (∀ o e, execute s env (.proposeNewOwner o e) = .error .unauthorized ∧
      runInvocation s env (.proposeNewOwner o e) = (s, [])) ∧
    (execute s env .dropOwnershipProposal = .error .unauthorized ∧
      runInvocation s env .dropOwnershipProposal = (s, [])) ∧
    (∀ b, execute s env (.enableRewards b) = .error .unauthorized ∧
      runInvocation s env (.enableRewards b) = (s, [])) := by
  refine ⟨?_, ?_, ?_, ?_, ?_⟩ <;>
    simp [execute, runInvocation, updateConfig, updateBridges, proposeNewOwner,
      dropOwnershipProposal, enableRewards, Except.map, h]

/-- C6 witness: the stranger caller is rejected on a concrete store. -/
theorem non_owner_admin_unauthorized_witness :
    execute stBase envMallory .dropOwnershipProposal = .error .unauthorized ∧
    runInvocation stBase envMallory .dropOwnershipProposal = (stBase, []) :=
  (non_owner_admin_unauthorized stBase envMallory (by decide)).2.2.2.1

/-- C9: the invocation-level transactional semantics — whenever `execute`
fails with any error, the committed result of the invocation is the untouched
pre-invocation store with no actions (no asset movement, no partial state). -/
theorem failed_invocation_rolls_back (s : State) (env : Env) (msg : ExecuteMsg)
    (e : MakerError) (h : execute s env msg = .error e) :
    runInvocation s env msg = (s, []) := by
  simp [runInvocation, h]

/-- C9 witness: a concrete failing invocation commits nothing. -/
theorem failed_invocation_rolls_back_witness :
    execute stBase envMallory (.proposeNewOwner "mallory" 10) = .error .unauthorized ∧
    runInvocation stBase envMallory (.proposeNewOwner "mallory" 10) = (stBase, []) := by
  have h : execute stBase envMallory (.proposeNewOwner "mallory" 10)
      = .error .unauthorized := rfl
  exact ⟨h, failed_invocation_rolls_back stBase envMallory (.proposeNewOwner "mallory" 10)
    .unauthorized h⟩

/-- C10: an owner-sent `UpdateBridges` with both optional fields absent is a
valid message and a complete no-op: it succeeds, leaves the bridge table and
every other stored field unchanged, and issues no action. -/
theorem update_bridges_absent_fields_noop (s : State) (env : Env)
    (h : env.caller = s.config.owner) :
    execute s env (.updateBridges none none) = .ok (s, []) := by
  simp [execute, updateBridges, h, bridgeRemove, Except.map]

/-- C10 witness: the no-op on a concrete store. -/
theorem update_bridges_absent_fields_noop_witness :
    execute stBase envOwner (.updateBridges none none) = .ok (stBase, []) :=
  update_bridges_absent_fields_noop stBase envOwner rfl

/-- Last-wins lookup in a list of additions: the bridge of the last entry
keyed by `a`. -/
def lookupLast (l : List (AssetInfo × AssetInfo)) (a : AssetInfo) : Option AssetInfo :=
  (l.reverse.find? (fun p => p.1 = a)).map Prod.snd

/-- Filtering out a key other than `x` does not change the `x` lookup. -/
lemma find_filter_ne (t : List (AssetInfo × AssetInfo)) (k x : AssetInfo) (hx : k ≠ x) :
    (t.filter (fun p => p.1 ≠ k)).find? (fun p => p.1 = x)
      = t.find? (fun p => p.1 = x) := by
  rw [List.find?_filter]
  congr 1
  funext a
  by_cases h1 : a.1 = x <;> by_cases h2 : a.1 = k <;> simp [h1, h2]
  all_goals first
  | exact fun hh => hx hh
  | exact fun hh => hx hh.symm

/-- Lookup after a single upsert. -/
lemma bridgeLookup_upsert (t : List (AssetInfo × AssetInfo)) (e : AssetInfo × AssetInfo)
    (x : AssetInfo) :
    bridgeLookup (bridgeUpsert t e) x
      = if e.1 = x then some e.2 else bridgeLookup t x := by
  unfold bridgeUpsert bridgeLookup
  by_cases hx : e.1 = x
  · rw [List.find?_cons_of_pos _ (by simp [hx]), if_pos hx]
    rfl
  · rw [List.find?_cons_of_neg _ (by simp [hx]), if_neg hx,
      find_filter_ne t e.1 x hx]

/-- Lookup after folding a list of upserts: the last matching addition wins,
otherwise the original table answers. -/
lemma bridgeLookup_foldl_upsert (l t : List (AssetInfo × AssetInfo)) (x : AssetInfo) :
    bridgeLookup (l.foldl bridgeUpsert t) x
      = match lookupLast l x with
        | some b => some b
        | none => bridgeLookup t x := by
  induction l generalizing t with
  | nil => simp [lookupLast]
  | cons e l ih =>
    rw [List.foldl_cons, ih]
    have hll : lookupLast (e :: l) x
        = match lookupLast l x with
          | some b => some b
          | none => if e.1 = x then some e.2 else none := by
      unfold lookupLast
      rw [List.reverse_cons, List.find?_append]
      cases hf : l.reverse.find? (fun p => p.1 = x) with
      | some b => simp [hf, Option.orElse]
      | none =>
        by_cases hx : e.1 = x <;> simp [hf, List.find?_cons, hx, Option.orElse]
    rw [hll]
    cases hf : lookupLast l x with
    | some b => simp
    | none =>
      by_cases hx : e.1 = x <;> simp [hx, bridgeLookup_upsert]

/-- Lookup after removal: removed keys answer nothing, others are unchanged. -/
lemma bridgeLookup_bridgeRemove (t : List (AssetInfo × AssetInfo))
    (keys : List AssetInfo) (x : AssetInfo) :
    bridgeLookup (bridgeRemove t keys) x
      = if x ∈ keys then none else bridgeLookup t x := by
  induction t with
  | nil => simp [bridgeRemove, bridgeLookup]
  | cons a t ih =>
    by_cases hk : a.1 ∈ keys
    · have h1 : bridgeRemove (a :: t) keys = bridgeRemove t keys := by
        simp [bridgeRemove, List.filter_cons, hk]
      rw [h1, ih]
      by_cases hxk : x ∈ keys
      · simp [hxk]
      · have hax : ¬ a.1 = x := fun hh => hxk (hh ▸ hk)
        rw [if_neg hxk, if_neg hxk]
        unfold bridgeLookup
        rw [List.find?_cons_of_neg _ (by simp [hax])]
    · have h1 : bridgeRemove (a :: t) keys = a :: bridgeRemove t keys := by
        simp [bridgeRemove, List.filter_cons, hk]
      rw [h1]
      by_cases hx : a.1 = x
      · have hxk : ¬ x ∈ keys := hx ▸ hk
        rw [if_neg hxk]
        unfold bridgeLookup
        rw [List.find?_cons_of_pos _ (by simp [hx]),
          List.find?_cons_of_pos _ (by simp [hx])]
      · unfold bridgeLookup
        unfold bridgeLookup at ih
        rw [List.find?_cons_of_neg _ (by simp [hx]),
          List.find?_cons_of_neg _ (by simp [hx])]
        exact ih

/-- Folding upserts of non-self-mapping entries into a non-self-mapping table
keeps the table free of self-mappings. -/
lemma foldl_upsert_no_self (l : List (AssetInfo × AssetInfo)) :
    ∀ t : List (AssetInfo × AssetInfo), (∀ p ∈ t, p.1 ≠ p.2) → (∀ p ∈ l, p.1 ≠ p.2) →
      ∀ p ∈ l.foldl bridgeUpsert t, p.1 ≠ p.2 := by
  induction l with
  | nil => intro t ht _; simpa using ht
  | cons e l ih =>
    intro t ht hl
    rw [List.foldl_cons]
    apply ih
    · intro p hp
      rcases List.mem_cons.mp hp with rfl | hp
      · exact hl p (List.mem_cons_self _ _)
      · exact ht p (List.mem_of_mem_filter hp)
    · intro p hp
      exact hl p (List.mem_cons_of_mem _ hp)

/-- C7: the bridge table never maps an asset to itself — an `UpdateBridges`
addition whose source equals its bridge is rejected (`invalidConfig`), and a
successful update keeps a self-map-free table self-map-free; a successful
update realizes removals-then-upserts exactly (last matching addition wins,
removed keys are gone, everything else unchanged); and the 2-cycle obtained by
adding USDC→USDT next to an existing USDT→USDC is accepted at update time but
caught by the depth guard during routing (`maxBridgeDepthReached`), never
looping. -/
theorem update_bridges_validated :
    (∀ (s : State) (caller : String) (add : List (AssetInfo × AssetInfo))
      (remove : Option (List AssetInfo)) (x : AssetInfo),
      caller = s.config.owner → (x, x) ∈ add →
      updateBridges s caller (some add) remove = .error .invalidConfig) ∧
    (∀ (s : State) (caller : String) (add : Option (List (AssetInfo × AssetInfo)))
      (remove : Option (List AssetInfo)) (s' : State),
      (∀ p ∈ s.bridges, p.1 ≠ p.2) → updateBridges s caller add remove = .ok s' →
      ∀ p ∈ s'.bridges, p.1 ≠ p.2) ∧
    (∀ (s : State) (caller : String) (add : Option (List (AssetInfo × AssetInfo)))
      (remove : Option (List AssetInfo)) (s' : State) (x : AssetInfo),
      updateBridges s caller add remove = .ok s' →
      bridgeLookup s'.bridges x
        = match lookupLast (add.getD []) x with
          | some b => some b
          | none =>
            if x ∈ remove.getD [] then none else bridgeLookup s.bridges x) ∧
    (updateBridges { stBase with bridges := [(usdt, usdc)] } "alice"
        (some [(usdc, usdt)]) none
      = .ok { stBase with bridges := [(usdc, usdt), (usdt, usdc)] } ∧
     routeToReward astro cyclePools [(usdc, usdt), (usdt, usdc)] usdc 0
      = .error .maxBridgeDepthReached) := by
  refine ⟨?_, ?_, ?_, ?_, ?_⟩
  · intro s caller add remove x hc hx
    have hany : add.any (fun p => p.1 = p.2) = true :=
      List.any_eq_true.mpr ⟨(x, x), hx, by simp⟩
    simp [updateBridges, hc, hany]
  · intro s caller add remove s' hinv hok
    unfold updateBridges at hok
    by_cases hc : caller = s.config.owner
    · by_cases hany : (add.getD []).any (fun p => p.1 = p.2) = true
      · simp [hc, hany] at hok
      · simp [hc, hany] at hok
        subst hok
        apply foldl_upsert_no_self
        · intro p hp
          exact hinv p (List.mem_of_mem_filter hp)
        · intro p hp hpe
          exact hany (List.any_eq_true.mpr ⟨p, hp, by simp [hpe]⟩)
    · simp [hc] at hok
  · intro s caller add remove s' x hok
    unfold updateBridges at hok
    by_cases hc : caller = s.config.owner
    · by_cases hany : (add.getD []).any (fun p => p.1 = p.2) = true
      · simp [hc, hany] at hok
      · simp [hc, hany] at hok
        subst hok
        rw [bridgeLookup_foldl_upsert, bridgeLookup_bridgeRemove]
    · simp [hc] at hok
  · rfl
  · simp [routeToReward, cyclePools, bridgeLookup, usdt, usdc, astro, MAX_BRIDGE_DEPTH]

/-- C7 witness: the lookup characterization applied to the concrete 2-cycle
update. -/
theorem update_bridges_validated_witness :
    updateBridges { stBase with bridges := [(usdt, usdc)] } "alice"
        (some [(usdc, usdt)]) none
      = .ok { stBase with bridges := [(usdc, usdt), (usdt, usdc)] } ∧
    bridgeLookup ({ stBase with bridges := [(usdc, usdt), (usdt, usdc)] } : State).bridges
        usdc
      = match lookupLast ((some [(usdc, usdt)]).getD []) usdc with
        | some b => some b
        | none =>
          if usdc ∈ (none : Option (List AssetInfo)).getD [] then none
          else bridgeLookup ({ stBase with bridges := [(usdt, usdc)] } : State).bridges usdc :=
  ⟨rfl,
   update_bridges_validated.2.2.1 { stBase with bridges := [(usdt, usdc)] } "alice"
     (some [(usdc, usdt)]) none { stBase with bridges := [(usdc, usdt), (usdt, usdc)] }
     usdc rfl⟩

/-- C8: the governance fields are coherent in every reachable configuration —
instantiation with a governance percent but no governance address fails with
`invalidConfig` (and any successful instantiation satisfies the invariant), a
configuration update that would leave a percent set with no governance
address fails with `invalidConfig`, and every successfully executed message
preserves the invariant that a stored percent implies a stored governance
address. -/
theorem governance_percent_invariant :
    (∀ (msg : InstantiateMsg) (c : Config), instantiate msg = .ok c → configInvariant c) ∧
    (∀ msg : InstantiateMsg, msg.governancePercent.isSome →
      msg.governanceContract = none → instantiate msg = .error .invalidConfig) ∧
    (∀ (s : State) (env : Env) (f st : Option String) (ms : Option Nat) (p : Nat),
      env.caller = s.config.owner → s.config.governanceContract = none →
      execute s env (.updateConfig f st none (some p) ms) = .error .invalidConfig) ∧
    (∀ (s : State) (env : Env) (msg : ExecuteMsg) (s' : State) (acts : List Action),
      configInvariant s.config → execute s env msg = .ok (s', acts) →
      configInvariant s'.config) := by
  refine ⟨?_, ?_, ?_, ?_⟩
  · intro msg c hok
    unfold instantiate at hok
    split at hok
    · simp at hok
    · rename_i hgood
      injection hok with hok
      subst hok
      intro hp
      simp only at hp ⊢
      cases hgc : msg.governanceContract with
      | none => exact absurd ⟨hp, hgc⟩ hgood
      | some g => simp
  · intro msg h1 h2
    simp [instantiate, h1, h2]
  · intro s env f st ms p hc hgc
    simp [execute, updateConfig, hc, applyUpdateAddr, updatedPercent, hgc, Except.map]
  · intro s env msg s' acts hinv hok
    cases msg with
    | collect assets =>
      simp only [execute, executeCollect] at hok
      split at hok
      · simp at hok
      · injection hok with hok
        injection hok with h1 h2
        subst h1
        exact hinv
    | updateConfig f st g gp ms =>
      simp only [execute] at hok
      cases hu : updateConfig s env.caller f st g gp ms with
      | error e => simp [hu, Except.map] at hok
      | ok s2 =>
        simp only [hu, Except.map] at hok
        injection hok with hok
        injection hok with h1 h2
        subst h1
        unfold updateConfig at hu
        split at hu
        · simp at hu
        · split at hu
          · simp at hu
          · rename_i hgood
            injection hu with hu
            subst hu
            intro hp
            simp only at hp ⊢
            cases hno : applyUpdateAddr s.config.governanceContract g with
            | none => exact absurd ⟨hp, hno⟩ hgood
            | some g2 => simp
    | updateBridges add remove =>
      simp only [execute] at hok
      cases hu : updateBridges s env.caller add remove with
      | error e => simp [hu, Except.map] at hok
      | ok s2 =>
        simp only [hu, Except.map] at hok
        injection hok with hok
        injection hok with h1 h2
        subst h1
        unfold updateBridges at hu
        split at hu
        · simp at hu
        · split at hu
          · simp at hu
          · injection hu with hu
            subst hu
            exact hinv
    | swapBridgeAssets assets depth =>
      simp only [execute, executeSwapBridgeAssets] at hok
      cases hm : assets.mapM
          (fun a => routeToReward (rewardAsset s.config) env.poolExists s.bridges a depth) with
      | error e => rw [hm] at hok; simp at hok
      | ok paths =>
        rw [hm] at hok
        injection hok with hok
        injection hok with h1 h2
        subst h1
        exact hinv
    | distributeAstro =>
      simp only [execute] at hok
      injection hok with hok
      injection hok with h1 h2
      subst h1
      intro hp
      simp only at hp ⊢
      unfold distributeAstro at hp ⊢
      simp only at hp ⊢
      exact hinv hp
    | proposeNewOwner o e =>
      simp only [execute] at hok
      cases hu : proposeNewOwner s env.caller o e env.blockHeight with
      | error e2 => simp [hu, Except.map] at hok
      | ok s2 =>
        simp only [hu, Except.map] at hok
        injection hok with hok
        injection hok with h1 h2
        subst h1
        unfold proposeNewOwner at hu
        split at hu
        · simp at hu
        · injection hu with hu
          subst hu
          exact hinv
    | dropOwnershipProposal =>
      simp only [execute] at hok
      cases hu : dropOwnershipProposal s env.caller with
      | error e2 => simp [hu, Except.map] at hok
      | ok s2 =>
        simp only [hu, Except.map] at hok
        injection hok with hok
        injection hok with h1 h2
        subst h1
        unfold dropOwnershipProposal at hu
        split at hu
        · simp at hu
        · injection hu with hu
          subst hu
          exact hinv
    | claimOwnership =>
      simp only [execute] at hok
      cases hu : claimOwnership s env.caller env.blockHeight with
      | error e2 => simp [hu, Except.map] at hok
      | ok s2 =>
        simp only [hu, Except.map] at hok
        injection hok with hok
        injection hok with h1 h2
        subst h1
        unfold claimOwnership at hu
        split at hu
        · simp at hu
        · split at hu
          · simp at hu
          · split at hu
            · simp at hu
            · injection hu with hu
              subst hu
              exact hinv
    | enableRewards blocks =>
      simp only [execute] at hok
      cases hu : enableRewards s env.caller blocks env.blockHeight with
      | error e2 => simp [hu, Except.map] at hok
      | ok s2 =>
        simp only [hu, Except.map] at hok
        injection hok with hok
        injection hok with h1 h2
        subst h1
        unfold enableRewards at hu
        split at hu
        · simp at hu
        · split at hu
          · injection hu with hu
            subst hu
            exact hinv
          · injection hu with hu
            subst hu
            exact hinv

/-- C8 witness: an instantiation carrying a governance percent without a
governance address is rejected with `invalidConfig`. -/
theorem governance_percent_invariant_witness :
    instantiate ⟨"alice", "astro", "factory", "staking", none, some 20, none⟩
      = .error .invalidConfig :=
  governance_percent_invariant.2.1
    ⟨"alice", "astro", "factory", "staking", none, some 20, none⟩ (by simp) rfl

end Maker
